import Mathlib

/-
Verification development for the p2c order-acquisition engine.

Shallow embedding conventions:
  * time.Time values are modelled as Nat seconds; the Go zero time is 0,
    t.IsZero() is (t = 0), t.Before(u) is (t < u), t.After(u) is (u < t),
    and durations are seconds (10*time.Second = 10, 5*time.Minute = 300,
    10*time.Minute = 600, 2*time.Second = 2).
  * Go maps are modelled as association lists with delete-by-filter and
    insert-by-cons semantics; lookups resolve the first matching key.
  * The result of strconv.ParseFloat on the in_amount string is modelled
    as an Option Rat field (none = parse failure), and the result of
    time.Parse(RFC3339, expires_at) as an Option Nat field (none = empty
    or unparseable string); no claim under verification concerns the
    string parsing itself.
  * Upstream HTTP calls made by Worker methods are modelled by passing
    the call outcome as an explicit argument and recording the issued
    requests in the returned trace.
-/

namespace P2C

/-- Account configuration, from engine.WorkerConfig. -/
structure WorkerConfig where
  accountID : Int
  accessToken : String
  chatID : Int
  minAmount : Option ℚ
  maxAmount : Option ℚ
  autoMode : Bool
  active : Bool
  p2cAccountID : String
deriving DecidableEq, Repr

/-- Event payload of a list:update op=add entry, from p2c.LivePayment.
The inAmount field models the parsed value of the in_amount decimal
string and expiresAt the parsed RFC3339 expiry (none = empty or
unparseable), per the conventions above. -/
structure LivePayment where
  id : String
  payload : String
  url : String
  brandName : String
  inAsset : String
  outAsset : String
  boost : ℚ
  provider : String
  inAmount : Option ℚ
  outAmount : String
  exchangeRate : String
  feeAmount : String
  expiresAt : Option Nat
deriving DecidableEq, Repr

/-- Helper producing a payment with a given id and all other fields at
their zero values. -/
def mkPayment (id : String) : LivePayment :=
  { id := id, payload := "", url := "", brandName := "", inAsset := ""
    outAsset := "", boost := 0, provider := "", inAmount := none
    outAmount := "", exchangeRate := "", feeAmount := "", expiresAt := none }

/-- Per-account Worker runtime state, from engine.Worker (the mutable
fields the verified operations read and write). -/
structure Worker where
  cfg : WorkerConfig
  p2cAccountID : String
  seen : List (String × Nat)
  takeMap : List (String × Int)
  penaltyUntil : Nat
  penaltyReason : String
  activePaymentID : String
  activeLockUntil : Nat
  lastPenaltyNotified : Nat
deriving DecidableEq, Repr

/-- Membership test on the dedup cache, modelling the Go map lookup
comma-ok form on w.seen. -/
def Worker.seenHas (w : Worker) (id : String) : Bool :=
  w.seen.any (fun e => e.1 == id)

/-- Dedup-cache sweep, from Worker.evictSeen: removes entries whose
first-seen timestamp is more than 10 minutes old. -/
def Worker.evictSeen (w : Worker) (now : Nat) : Worker :=
  { w with seen := w.seen.filter (fun e => !(decide (600 < now - e.2))) }

/-- Penalty-notification gate, from Worker.shouldNotifyPenalty. -/
def Worker.shouldNotifyPenalty (w : Worker) (u : Nat) : Bool × Worker :=
  if u = 0 then (false, w)
  else if w.lastPenaltyNotified < u then (true, { w with lastPenaltyNotified := u })
  else (false, w)

/-- Active-lock test, from Worker.isActiveLocked. Note that the check
itself resets an expired lock. -/
def Worker.isActiveLocked (w : Worker) (now : Nat) : Bool × Worker :=
  if w.activeLockUntil = 0 ∧ w.activePaymentID = "" then (false, w)
  else if now < w.activeLockUntil then (true, w)
  else (false, { w with activePaymentID := "", activeLockUntil := 0 })

/-- Lock installation after a successful accept, from Worker.setActiveLock. -/
def Worker.setActiveLock (w : Worker) (id : String) (expiresAt : Option Nat) (now : Nat) : Worker :=
  let lockUntil : Nat :=
    match expiresAt with
    | some t => if now < t then t + 10 else now + 300
    | none => now + 300
  { w with activePaymentID := id, activeLockUntil := lockUntil }

/-- Lock extension on an ActiveOrderExists rejection, from
Worker.bumpActiveLock. -/
def Worker.bumpActiveLock (w : Worker) (now : Nat) : Worker :=
  let backoff := now + 2
  if w.activeLockUntil < backoff then { w with activeLockUntil := backoff } else w

/-- Lock release, from Worker.clearActiveLock. -/
def Worker.clearActiveLock (w : Worker) (id : String) : Worker :=
  if id = "" ∨ id = w.activePaymentID then
    { w with activePaymentID := "", activeLockUntil := 0 }
  else w

/-- Translation-table insert, from Worker.storeTakeID. -/
def Worker.storeTakeID (w : Worker) (hexID : String) (numericID : Int) : Worker :=
  if hexID = "" ∨ numericID = 0 then w
  else { w with takeMap := (hexID, numericID) :: w.takeMap }

/-- Translation-table lookup, from Worker.lookupTakeID. -/
def Worker.lookupTakeID (w : Worker) (hexID : String) : Option Int :=
  if hexID = "" then none else w.takeMap.lookup hexID

/-- Lower amount filter of the accept path: parse succeeded, a minimum
is configured, and the amount is below it. -/
def belowMinAmount (cfg : WorkerConfig) (p : LivePayment) : Bool :=
  match p.inAmount, cfg.minAmount with
  | some a, some mn => decide (a < mn)
  | _, _ => false

/-- Upper amount filter of the accept path: parse succeeded, a positive
maximum is configured, and the amount is above it. -/
def aboveMaxAmount (cfg : WorkerConfig) (p : LivePayment) : Bool :=
  match p.inAmount, cfg.maxAmount with
  | some a, some mx => decide (0 < mx ∧ mx < a)
  | _, _ => false

/-- Outcome of the TakeLivePayment accept request, classified the way
Worker.handleLivePayment classifies the returned error: parsePenalty
recognises MerchantPenalized (carrying the parsed penalty_end_at and a
reason), isActiveExists recognises ActiveOrderExists, anything else is
an unrecognised error; on success the optional numeric id is the value
parsed from the response body (none = absent or unparseable). -/
inductive TakeOutcome where
  | success (numericID : Option Int)
  | penalized (endAt : Nat) (reason : String)
  | activeExists
  | otherError
deriving DecidableEq, Repr

/-- Result of one delivery to the live-payment handler: the new Worker
state, whether the accept request was issued, the penalty notifications
sent (as endAt-reason pairs), and whether the asynchronous accept
notification was dispatched. -/
structure HandleResult where
  state : Worker
  tookRequest : Bool
  notifications : List (Nat × String)
  acceptNotified : Bool
deriving DecidableEq, Repr

/-- Accept path for one Add event, from Worker.handleLivePayment:
dedup check, first-seen record, active-lock gate, penalty gate, amount
filter, then the accept request with its four outcome branches. -/
def Worker.handleLivePayment (w : Worker) (p : LivePayment) (now : Nat)
    (o : TakeOutcome) : HandleResult :=
  if w.seenHas p.id then ⟨w, false, [], false⟩
  else
    let w1 := { w with seen := (p.id, now) :: w.seen }
    let lk := w1.isActiveLocked now
    if lk.1 then ⟨lk.2, false, [], false⟩
    else
      let w2 := lk.2
      if now < w2.penaltyUntil then ⟨w2, false, [], false⟩
      else if belowMinAmount w2.cfg p then ⟨w2, false, [], false⟩
      else if aboveMaxAmount w2.cfg p then ⟨w2, false, [], false⟩
      else
        match o with
        | .penalized u r =>
          let w3 := { w2 with penaltyUntil := u, penaltyReason := r }
          let nres := w3.shouldNotifyPenalty u
          ⟨nres.2, true, if nres.1 then [(u, r)] else [], false⟩
        | .activeExists => ⟨w2.bumpActiveLock now, true, [], false⟩
        | .otherError => ⟨w2, true, [], false⟩
        | .success nid =>
          let w3 := w2.setActiveLock p.id p.expiresAt now
          let w4 := match nid with
            | some n => w3.storeTakeID p.id n
            | none => w3
          ⟨w4, true, [], true⟩

/-- Upstream REST request issued by a Worker control operation. -/
inductive UpstreamCall where
  | complete (paymentID : String) (method : String)
  | cancel (paymentID : String) (reason : String)
deriving DecidableEq, Repr

/-- Result of a Worker control operation: the returned Go error (none =
nil), the new Worker state, and the upstream requests issued. -/
structure OpResult where
  errOut : Option String
  state : Worker
  calls : List UpstreamCall
deriving DecidableEq, Repr

/-- Manual completion, from Worker.CompletePayment: guard on the
configured p2c account id, translate the supplied id through takeMap,
issue the complete request (outcome passed as clientErr), and clear the
active lock with the originally supplied id on success. -/
def Worker.CompletePayment (w : Worker) (paymentID : String)
    (clientErr : Option String) : OpResult :=
  if w.p2cAccountID = "" then ⟨some "no p2c account id configured", w, []⟩
  else
    let pid := match w.lookupTakeID paymentID with
      | some n => toString n
      | none => paymentID
    match clientErr with
    | some e => ⟨some e, w, [.complete pid w.p2cAccountID]⟩
    | none => ⟨none, w.clearActiveLock paymentID, [.complete pid w.p2cAccountID]⟩

/-- Manual cancellation, from Worker.CancelPayment; the reason is the
hard-coded "balance". -/
def Worker.CancelPayment (w : Worker) (paymentID : String)
    (clientErr : Option String) : OpResult :=
  if w.p2cAccountID = "" then ⟨some "no p2c account id configured", w, []⟩
  else
    let pid := match w.lookupTakeID paymentID with
      | some n => toString n
      | none => paymentID
    match clientErr with
    | some e => ⟨some e, w, [.cancel pid "balance"]⟩
    | none => ⟨none, w.clearActiveLock paymentID, [.cancel pid "balance"]⟩

/-- Iterated penalty-notification gate: runs shouldNotifyPenalty over a
sequence of observed penalty_end_at values and collects the values for
which a notification was sent, in order. -/
def runNotify (w : Worker) : List Nat → List Nat
  | [] => []
  | u :: us =>
    let r := w.shouldNotifyPenalty u
    if r.1 then u :: runNotify r.2 us else runNotify r.2 us

/-- Virtual-list state owned by the subscription driver: the ordered id
list and the first-seen map, from the listIDs and addTimes locals of
p2c.SubscribeSocket. -/
structure ListState where
  listIDs : List String
  addTimes : List (String × Nat)
deriving DecidableEq, Repr

/-- Reducer for a list:update op=add entry, from the add branch of
p2c.SubscribeSocket: record first-seen if absent, remove an existing
occurrence of the id, then insert at the guarded position (an absent or
out-of-range pos falls back to 0). -/
def applyAdd (st : ListState) (p : LivePayment) (posO : Option Int) (now : Nat) : ListState :=
  let addTimes :=
    if st.addTimes.any (fun e => e.1 == p.id) then st.addTimes
    else (p.id, now) :: st.addTimes
  let l1 := st.listIDs.erase p.id
  let pos : Int :=
    match posO with
    | some q => if 0 ≤ q ∧ q ≤ (l1.length : Int) then q else 0
    | none => 0
  let pos := if pos < 0 then 0 else pos
  let pos := if (l1.length : Int) < pos then (l1.length : Int) else pos
  { listIDs := l1.take pos.toNat ++ p.id :: l1.drop pos.toNat, addTimes := addTimes }

/-- Reducer for a list:update op=remove entry, from the remove branch of
p2c.SubscribeSocket: an absent or out-of-range pos is a desync skip,
otherwise the victim id is resolved by position, removed from the list
and deleted from the first-seen map. -/
def applyRemove (st : ListState) (posO : Option Int) : ListState :=
  match posO with
  | none => st
  | some q =>
    if q < 0 ∨ (st.listIDs.length : Int) ≤ q then st
    else
      let i := q.toNat
      let id := st.listIDs.getD i ""
      { listIDs := st.listIDs.take i ++ st.listIDs.drop (i + 1)
        addTimes := st.addTimes.filter (fun e => !(e.1 == id)) }

/-- Reducer for a list:snapshot event, from p2c.SubscribeSocket: the
list is replaced in stream order and every first-seen is reset to now. -/
def applySnapshot (ps : List LivePayment) (now : Nat) : ListState :=
  { listIDs := ps.map (fun p => p.id)
    addTimes := ps.map (fun p => (p.id, now)) }

/-- Modelled from the spec: the claimed add semantics, inserting the id
at index clamp(pos or 0, 0, len) = min(max(pos or 0, 0), len) after the
duplicate removal. Stated only on the id list, for comparison with the
applyAdd reducer translated from the source. -/
def specClampAddListIDs (l : List String) (id : String) (posO : Option Int) : List String :=
  let l1 := l.erase id
  let q := posO.getD 0
  let i := (min (max q 0) (l1.length : Int)).toNat
  l1.take i ++ id :: l1.drop i

/-- Manager state: the account-to-worker map, from engine.Manager. A
live Worker is represented by the configuration it was built with. -/
structure Manager where
  workers : List (Int × WorkerConfig)
deriving DecidableEq, Repr

/-- Zero-value WorkerConfig with a given account id, modelling the Go
composite literal with only AccountID set: every other field is at its
zero value, in particular active = false and autoMode = false. -/
def zeroConfig (accountID : Int) : WorkerConfig :=
  { accountID := accountID, accessToken := "", chatID := 0, minAmount := none
    maxAmount := none, autoMode := false, active := false, p2cAccountID := "" }

/-- Reconciliation, from Manager.ReloadAccount: with active and
auto mode both set, the existing worker is stopped and replaced;
otherwise any existing worker is stopped and evicted and none is
created. -/
def Manager.ReloadAccount (m : Manager) (cfg : WorkerConfig) : Manager :=
  if !cfg.active || !cfg.autoMode then
    ⟨m.workers.filter (fun e => !(e.1 == cfg.accountID))⟩
  else
    ⟨(cfg.accountID, cfg) :: m.workers.filter (fun e => !(e.1 == cfg.accountID))⟩

/-- Routing prologue shared by Manager.CompletePayment,
Manager.CancelPayment and Manager.TakeOrder: look the worker up, and if
absent call ReloadAccount with the zero-value config for the account and
look it up again; the delegated method is then invoked on the lookup
result, which in Go is a nil pointer when the second lookup also fails. -/
def Manager.routeWorker (m : Manager) (accountID : Int) : Option WorkerConfig × Manager :=
  match m.workers.lookup accountID with
  | some wc => (some wc, m)
  | none =>
    let m2 := m.ReloadAccount (zeroConfig accountID)
    (m2.workers.lookup accountID, m2)

/-- Handler targets reachable from the control-plane HTTP mux; the last
two are the Manager methods the spec routes the payments endpoints to. -/
inductive MgrCall where
  | health
  | reloadAccount
  | takeOrder
  | completePayment
  | cancelPayment
deriving DecidableEq, Repr

/-- Route table of the control-plane HTTP surface, from the mux
registrations in httpserver.New: exactly three paths are registered. -/
def serverDispatch (path : String) : Option MgrCall :=
  if path = "/health" then some .health
  else if path = "/accounts/reload" then some .reloadAccount
  else if path = "/orders/take" then some .takeOrder
  else none

/-- Worker with every field at its zero value, as NewWorker builds one
from a zero-value config and before any event was processed. -/
def mkWorker : Worker :=
  { cfg := zeroConfig 1, p2cAccountID := "", seen := [], takeMap := []
    penaltyUntil := 0, penaltyReason := "", activePaymentID := ""
    activeLockUntil := 0, lastPenaltyNotified := 0 }

theorem isActiveLocked_expired (w : Worker) (now : Nat) (h : w.activeLockUntil ≤ now) :
    w.isActiveLocked now = (false, { w with activePaymentID := "", activeLockUntil := 0 }) := by
  obtain ⟨cfg, acct, seen, tm, pU, pR, apid, alu, lpn⟩ := w
  simp only [Worker.isActiveLocked]
  by_cases h1 : alu = 0 ∧ apid = ""
  · obtain ⟨rfl, rfl⟩ := h1
    simp
  · have h2 : ¬ now < alu := Nat.not_lt.mpr h
    simp [h1, h2]

/-- C1: the lazy-instantiation routing fails on the code. With no worker
for the account, Manager.CompletePayment, CancelPayment and TakeOrder
call ReloadAccount with the zero-value config; since that config has
active = false, ReloadAccount refuses to create a worker, so the second
lookup is still none and the delegated call runs on a nil Worker. The
spec and the code comment say a worker is lazily started; the theorem
evaluates the routing at the failing input and shows none is resolved. -/
theorem c1_lazy_route_resolves_no_worker :
    ((Manager.mk []).routeWorker 7).1 = none ∧ (zeroConfig 7).active = false := by
  decide

/-- C2 counterexample: the control-plane mux registers no handler for
the payments endpoints; both lookups miss, so a POST to either path is
never dispatched to the Manager. -/
theorem c2_counterexample_no_payment_routes :
    serverDispatch "/payments/complete" = none ∧
    serverDispatch "/payments/cancel" = none := by
  decide

/-- C2 (amended): the HTTP surface serves exactly /health,
/accounts/reload and /orders/take; every other path, in particular
/payments/complete and /payments/cancel, resolves to no handler. -/
theorem c2_amended_registered_routes :
    serverDispatch "/health" = some MgrCall.health ∧
    serverDispatch "/accounts/reload" = some MgrCall.reloadAccount ∧
    serverDispatch "/orders/take" = some MgrCall.takeOrder ∧
    ∀ path : String, path ≠ "/health" → path ≠ "/accounts/reload" →
      path ≠ "/orders/take" → serverDispatch path = none := by
  refine ⟨by decide, by decide, by decide, ?_⟩
  intro path h1 h2 h3
  simp [serverDispatch, h1, h2, h3]

theorem c2_amended_registered_routes_witness :
    serverDispatch "/payments/complete" = none :=
  c2_amended_registered_routes.2.2.2 "/payments/complete"
    (by decide) (by decide) (by decide)

/-- C9: with no p2c account id configured, CompletePayment and
CancelPayment return the error "no p2c account id configured", issue no
upstream request, and leave the whole Worker state (in particular the
active lock and takeMap) unchanged. -/
theorem c9_no_account_id_guard (w : Worker) (pid : String) (cErr : Option String)
    (h : w.p2cAccountID = "") :
    w.CompletePayment pid cErr = ⟨some "no p2c account id configured", w, []⟩ ∧
    w.CancelPayment pid cErr = ⟨some "no p2c account id configured", w, []⟩ := by
  simp [Worker.CompletePayment, Worker.CancelPayment, h]

theorem c9_no_account_id_guard_witness :
    mkWorker.p2cAccountID = "" ∧
    mkWorker.CompletePayment "abc" none =
      ⟨some "no p2c account id configured", mkWorker, []⟩ ∧
    mkWorker.CancelPayment "abc" none =
      ⟨some "no p2c account id configured", mkWorker, []⟩ :=
  ⟨rfl, (c9_no_account_id_guard mkWorker "abc" none rfl).1,
    (c9_no_account_id_guard mkWorker "abc" none rfl).2⟩

/-- C10: whenever the active-lock check runs with now not before until,
it reports not-locked and resets both payment_id and until to their zero
values, leaving every other Worker field unchanged, so an expired lock
never survives its first inspection. -/
theorem c10_expired_lock_check_resets (w : Worker) (now : Nat)
    (h : ¬ now < w.activeLockUntil) :
    (w.isActiveLocked now).1 = false ∧
    (w.isActiveLocked now).2.activePaymentID = "" ∧
    (w.isActiveLocked now).2.activeLockUntil = 0 ∧
    (w.isActiveLocked now).2.seen = w.seen ∧
    (w.isActiveLocked now).2.takeMap = w.takeMap ∧
    (w.isActiveLocked now).2.penaltyUntil = w.penaltyUntil ∧
    (w.isActiveLocked now).2.lastPenaltyNotified = w.lastPenaltyNotified := by
  rw [isActiveLocked_expired w now (Nat.not_lt.mp h)]
  simp

/-- Fixture: a worker holding an expired lock bound to payment A. -/
def wLock : Worker := { mkWorker with activePaymentID := "A", activeLockUntil := 5 }

theorem c10_expired_lock_check_resets_witness :
    ¬ (10 : Nat) < wLock.activeLockUntil ∧
    (wLock.isActiveLocked 10).1 = false ∧
    (wLock.isActiveLocked 10).2.activePaymentID = "" ∧
    (wLock.isActiveLocked 10).2.activeLockUntil = 0 := by
  have h := c10_expired_lock_check_resets wLock 10 (by decide)
  exact ⟨by decide, h.1, h.2.1, h.2.2.1⟩

theorem clearActiveLock_takeMap (w : Worker) (id : String) :
    (w.clearActiveLock id).takeMap = w.takeMap := by
  unfold Worker.clearActiveLock
  split <;> rfl

/-- Fixture: a worker that has successfully accepted payment A (takeMap
entry A to 777, active lock bound to A) with a configured account id. -/
def wTake : Worker :=
  { mkWorker with
    p2cAccountID := "m1", takeMap := [("A", 777)],
    activePaymentID := "A", activeLockUntil := 100 }

/-- C4 counterexample: completing (or cancelling) payment A succeeds,
issues the upstream request with the translated numeric id, yet the
takeMap entry for A is still present afterwards; the code never removes
id_map entries. -/
theorem c4_counterexample_takemap_entry_survives :
    (wTake.CompletePayment "A" none).errOut = none ∧
    (wTake.CompletePayment "A" none).calls = [.complete "777" "m1"] ∧
    (wTake.CompletePayment "A" none).state.takeMap = [("A", 777)] ∧
    (wTake.CancelPayment "A" none).errOut = none ∧
    (wTake.CancelPayment "A" none).state.takeMap = [("A", 777)] := by
  decide

/-- C4 (amended): the takeMap entry created on successful accept is
never removed; CompletePayment and CancelPayment leave takeMap unchanged
on every path (they only clear the active lock). -/
theorem c4_amended_takemap_never_removed (w : Worker) (pid : String)
    (cErr : Option String) :
    (w.CompletePayment pid cErr).state.takeMap = w.takeMap ∧
    (w.CancelPayment pid cErr).state.takeMap = w.takeMap := by
  unfold Worker.CompletePayment Worker.CancelPayment
  by_cases h : w.p2cAccountID = ""
  · simp [h]
  · cases cErr <;> simp [h, clearActiveLock_takeMap]

/-- Fixture: a worker whose accept path is suppressed for id A recorded
at time 0, with no filters, lock or penalty configured. -/
def wStale : Worker := { mkWorker with seen := [("A", 0)] }

/-- C5 counterexample: at now = 10000 the entry for A is far older than
the 10-minute TTL, yet delivering A to the live-payment handler issues
no accept request and leaves the stale entry in place: the live path
performs no eviction, so the dedup suppression never ends. -/
theorem c5_counterexample_stale_entry_still_suppresses :
    600 < 10000 - 0 ∧
    wStale.handleLivePayment (mkPayment "A") 10000 (.success (some 777)) =
      ⟨wStale, false, [], false⟩ := by
  decide

/-- C5 (amended): the live accept path never evicts dedup entries: any
id present in the cache, however old, short-circuits the handler with no
accept request and no state change. The 10-minute sweep exists only in
evictSeen, which the source invokes from the polling path (pollOnce):
it keeps exactly the entries at most 10 minutes old. -/
theorem c5_amended_no_eviction_on_live_path :
    (∀ (w : Worker) (p : LivePayment) (now : Nat) (o : TakeOutcome),
      w.seenHas p.id = true → w.handleLivePayment p now o = ⟨w, false, [], false⟩) ∧
    (∀ (w : Worker) (now : Nat) (id : String) (ts : Nat),
      (id, ts) ∈ w.seen → now - ts ≤ 600 → (id, ts) ∈ (w.evictSeen now).seen) ∧
    (∀ (w : Worker) (now : Nat) (id : String) (ts : Nat),
      600 < now - ts → (id, ts) ∉ (w.evictSeen now).seen) := by
  refine ⟨?_, ?_, ?_⟩
  · intro w p now o h
    simp [Worker.handleLivePayment, h]
  · intro w now id ts hmem hle
    simp only [Worker.evictSeen, List.mem_filter]
    refine ⟨hmem, ?_⟩
    simp
    omega
  · intro w now id ts hgt hmem
    simp only [Worker.evictSeen, List.mem_filter] at hmem
    have := hmem.2
    simp at this
    omega

/-- Fixture: a worker with one fresh dedup entry. -/
def wEv : Worker := { mkWorker with seen := [("B", 5)] }

theorem c5_amended_no_eviction_on_live_path_witness :
    wStale.seenHas "A" = true ∧
    wStale.handleLivePayment (mkPayment "A") 10000 (.success (some 777)) =
      ⟨wStale, false, [], false⟩ ∧
    ("B", 5) ∈ (wEv.evictSeen 100).seen := by
  refine ⟨by decide, ?_, ?_⟩
  · exact c5_amended_no_eviction_on_live_path.1 wStale (mkPayment "A") 10000
      (.success (some 777)) (by decide)
  · exact c5_amended_no_eviction_on_live_path.2.1 wEv 100 "B" 5 (by decide) (by decide)

/-- Fixture: a worker whose lock was extended by an ActiveOrderExists
rejection: until is in force but no payment id is bound. -/
def wBump : Worker :=
  { mkWorker with p2cAccountID := "m1", activePaymentID := "", activeLockUntil := 100 }

/-- C6 counterexample: with no payment id bound, a successful complete
(and cancel) for the nonempty id x does not clear the lock: until stays
at 100. The code clears when the supplied id is empty or matches the
bound one, not when the bound id is empty. -/
theorem c6_counterexample_unbound_lock_not_cleared :
    wBump.activePaymentID = "" ∧
    (wBump.CompletePayment "x" none).errOut = none ∧
    (wBump.CompletePayment "x" none).state.activeLockUntil = 100 ∧
    (wBump.CancelPayment "x" none).errOut = none ∧
    (wBump.CancelPayment "x" none).state.activeLockUntil = 100 := by
  decide

/-- C6 (amended): a successful CompletePayment or CancelPayment clears
the active lock exactly when the supplied id is empty or equals the
bound payment id; otherwise, in particular when the lock holds an empty
payment id and the supplied id is nonempty, the worker state is left
unchanged. -/
theorem c6_amended_clear_on_supplied_id (w : Worker) (pid : String)
    (h : w.p2cAccountID ≠ "") :
    ((pid = "" ∨ pid = w.activePaymentID) →
      (w.CompletePayment pid none).state.activePaymentID = "" ∧
      (w.CompletePayment pid none).state.activeLockUntil = 0 ∧
      (w.CancelPayment pid none).state.activePaymentID = "" ∧
      (w.CancelPayment pid none).state.activeLockUntil = 0) ∧
    (pid ≠ "" → pid ≠ w.activePaymentID →
      (w.CompletePayment pid none).state = w ∧
      (w.CancelPayment pid none).state = w) := by
  unfold Worker.CompletePayment Worker.CancelPayment Worker.clearActiveLock
  refine ⟨?_, ?_⟩
  · intro hc
    simp [h, hc]
  · intro h1 h2
    have hc : ¬ (pid = "" ∨ pid = w.activePaymentID) := by
      intro hx
      cases hx with
      | inl hx => exact h1 hx
      | inr hx => exact h2 hx
    simp [h, hc]

theorem c6_amended_clear_on_supplied_id_witness :
    wTake.p2cAccountID ≠ "" ∧
    (wTake.CompletePayment "A" none).state.activePaymentID = "" ∧
    (wTake.CompletePayment "A" none).state.activeLockUntil = 0 := by
  have h := (c6_amended_clear_on_supplied_id wTake "A" (by decide)).1
    (Or.inr (by decide))
  exact ⟨by decide, h.1, h.2.1⟩

/-- Fixture: a one-element virtual list holding X. -/
def st0 : ListState := ⟨["X"], [("X", 0)]⟩

/-- C3 counterexample: adding Y with pos = 5 to the one-element list X
inserts Y at the head, whereas the claimed clamp semantics (modelled in
specClampAddListIDs) would place it at the end: min(5, 1) = 1. -/
theorem c3_counterexample_large_pos_goes_to_head :
    (applyAdd st0 (mkPayment "Y") (some 5) 1).listIDs = ["Y", "X"] ∧
    specClampAddListIDs st0.listIDs "Y" (some 5) = ["X", "Y"] := by
  decide

/-- C3 (amended): an add first removes the existing occurrence of the
id; it then inserts at pos when pos lies in [0, len] (len being the
length after the removal), and at index 0 (the head of the list, not the
end) when pos is absent, negative, or greater than len. -/
theorem c3_amended_add_insert_index (st : ListState) (p : LivePayment) (now : Nat) :
    ((applyAdd st p none now).listIDs = p.id :: st.listIDs.erase p.id) ∧
    ∀ q : Int,
      (0 ≤ q → q ≤ ((st.listIDs.erase p.id).length : Int) →
        (applyAdd st p (some q) now).listIDs =
          (st.listIDs.erase p.id).take q.toNat ++
            p.id :: (st.listIDs.erase p.id).drop q.toNat) ∧
      (q < 0 → (applyAdd st p (some q) now).listIDs = p.id :: st.listIDs.erase p.id) ∧
      (((st.listIDs.erase p.id).length : Int) < q →
        (applyAdd st p (some q) now).listIDs = p.id :: st.listIDs.erase p.id) := by
  have hz : ¬ ((st.listIDs.erase p.id).length : Int) < 0 := by omega
  constructor
  · simp [applyAdd, hz]
  · intro q
    refine ⟨?_, ?_, ?_⟩
    · intro h0 hlen
      have hA : ¬ q < 0 := by omega
      have hB : ¬ ((st.listIDs.erase p.id).length : Int) < q := by omega
      simp only [applyAdd]
      simp [h0, hlen, hA, hB]
    · intro hq
      have hC : ¬ (0 ≤ q ∧ q ≤ ((st.listIDs.erase p.id).length : Int)) := by omega
      simp only [applyAdd]
      simp [hC, hz]
    · intro hq
      have hC : ¬ (0 ≤ q ∧ q ≤ ((st.listIDs.erase p.id).length : Int)) := by omega
      simp only [applyAdd]
      simp [hC, hz]

theorem c3_amended_add_insert_index_witness :
    (applyAdd ⟨["X", "Z"], []⟩ (mkPayment "Y") (some 1) 7).listIDs = ["X", "Y", "Z"] := by
  have h := ((c3_amended_add_insert_index ⟨["X", "Z"], []⟩ (mkPayment "Y") 7).2 1).1
    (by decide) (by decide)
  exact h.trans (by decide)

theorem storeTakeID_activePaymentID (w : Worker) (id : String) (n : Int) :
    (w.storeTakeID id n).activePaymentID = w.activePaymentID := by
  unfold Worker.storeTakeID
  split <;> rfl

theorem storeTakeID_activeLockUntil (w : Worker) (id : String) (n : Int) :
    (w.storeTakeID id n).activeLockUntil = w.activeLockUntil := by
  unfold Worker.storeTakeID
  split <;> rfl

/-- C7: when the accept path reaches the take request (no dedup hit, no
live lock, no penalty, filter passed) and the request succeeds, the lock
is bound to the accepted stream id, with until = parsed expiry plus 10
seconds when the expiry parsed and lies in the future, and now plus 5
minutes otherwise (empty, unparseable or past expiry). -/
theorem c7_success_sets_lock (w : Worker) (p : LivePayment) (now : Nat) (nid : Option Int)
    (h1 : w.seenHas p.id = false)
    (h2 : w.activeLockUntil ≤ now)
    (h3 : w.penaltyUntil ≤ now)
    (h4 : belowMinAmount w.cfg p = false)
    (h5 : aboveMaxAmount w.cfg p = false) :
    (w.handleLivePayment p now (.success nid)).tookRequest = true ∧
    (w.handleLivePayment p now (.success nid)).state.activePaymentID = p.id ∧
    (∀ t, p.expiresAt = some t → now < t →
      (w.handleLivePayment p now (.success nid)).state.activeLockUntil = t + 10) ∧
    (∀ t, p.expiresAt = some t → t ≤ now →
      (w.handleLivePayment p now (.success nid)).state.activeLockUntil = now + 300) ∧
    (p.expiresAt = none →
      (w.handleLivePayment p now (.success nid)).state.activeLockUntil = now + 300) := by
  have hlk := isActiveLocked_expired { w with seen := (p.id, now) :: w.seen } now
    (by simpa using h2)
  have hp : ¬ now < w.penaltyUntil := Nat.not_lt.mpr h3
  refine ⟨?_, ?_, ?_, ?_, ?_⟩
  · simp [Worker.handleLivePayment, h1, hlk, hp, h4, h5]
  · cases nid <;>
      simp [Worker.handleLivePayment, h1, hlk, hp, h4, h5,
        storeTakeID_activePaymentID, Worker.setActiveLock]
  · intro t ht hlt
    have hnn : ¬ t ≤ now := Nat.not_le.mpr hlt
    cases nid <;>
      simp [Worker.handleLivePayment, h1, hlk, hp, h4, h5,
        storeTakeID_activeLockUntil, Worker.setActiveLock, ht, hlt, hnn]
  · intro t ht hle
    have hnl : ¬ now < t := Nat.not_lt.mpr hle
    cases nid <;>
      simp [Worker.handleLivePayment, h1, hlk, hp, h4, h5,
        storeTakeID_activeLockUntil, Worker.setActiveLock, ht, hnl]
  · intro ht
    cases nid <;>
      simp [Worker.handleLivePayment, h1, hlk, hp, h4, h5,
        storeTakeID_activeLockUntil, Worker.setActiveLock, ht]

/-- Fixture: a fresh payment whose expiry parsed to time 50. -/
def pExp : LivePayment := { mkPayment "B" with expiresAt := some 50 }

theorem c7_success_sets_lock_witness :
    (mkWorker.handleLivePayment pExp 10 (.success (some 777))).tookRequest = true ∧
    (mkWorker.handleLivePayment pExp 10 (.success (some 777))).state.activePaymentID = "B" ∧
    (mkWorker.handleLivePayment pExp 10 (.success (some 777))).state.activeLockUntil = 60 := by
  have h := c7_success_sets_lock mkWorker pExp 10 (some 777)
    (by decide) (by decide) (by decide) (by decide) (by decide)
  exact ⟨h.1, h.2.1, h.2.2.1 50 rfl (by decide)⟩

theorem runNotify_lt (us : List Nat) :
    ∀ (w : Worker) (v : Nat), v ∈ runNotify w us → w.lastPenaltyNotified < v := by
  induction us with
  | nil =>
    intro w v h
    simp [runNotify] at h
  | cons u us ih =>
    intro w v hv
    by_cases hu : u = 0
    · simp [runNotify, Worker.shouldNotifyPenalty, hu] at hv
      exact ih w v hv
    · by_cases hlt : w.lastPenaltyNotified < u
      · simp [runNotify, Worker.shouldNotifyPenalty, hu, hlt] at hv
        rcases hv with rfl | hv
        · exact hlt
        · have h2 := ih _ v hv
          simp at h2
          exact lt_trans hlt h2
      · simp [runNotify, Worker.shouldNotifyPenalty, hu, hlt] at hv
        exact ih w v hv

theorem runNotify_pairwise (us : List Nat) :
    ∀ w : Worker, List.Pairwise (· < ·) (runNotify w us) := by
  induction us with
  | nil =>
    intro w
    simp [runNotify]
  | cons u us ih =>
    intro w
    by_cases hu : u = 0
    · simp [runNotify, Worker.shouldNotifyPenalty, hu]
      exact ih w
    · by_cases hlt : w.lastPenaltyNotified < u
      · simp only [runNotify, Worker.shouldNotifyPenalty, hu, hlt]
        simp only [if_neg hu, if_pos hlt, if_true]
        refine List.pairwise_cons.mpr ⟨?_, ih _⟩
        intro v hv
        have h2 := runNotify_lt us _ v hv
        simpa using h2
      · simp [runNotify, Worker.shouldNotifyPenalty, hu, hlt]
        exact ih w

/-- C8: a penalty notification is sent iff the observed penalty_end_at
is non-zero and strictly exceeds last_notified, which is then advanced
to it; consequently over any sequence of observed penalty_end_at values
each distinct value is notified at most once, and this is what the
penalized branch of the live handler emits. -/
theorem c8_penalty_notification_idempotence :
    (∀ (w : Worker) (u : Nat),
      ((w.shouldNotifyPenalty u).1 = true ↔ u ≠ 0 ∧ w.lastPenaltyNotified < u)) ∧
    (∀ (w : Worker) (u : Nat),
      (w.shouldNotifyPenalty u).2.lastPenaltyNotified =
        if u ≠ 0 ∧ w.lastPenaltyNotified < u then u else w.lastPenaltyNotified) ∧
    (∀ (w : Worker) (us : List Nat) (v : Nat), (runNotify w us).count v ≤ 1) ∧
    (∀ (w : Worker) (p : LivePayment) (now : Nat) (u : Nat) (r : String),
      w.seenHas p.id = false → w.activeLockUntil ≤ now → w.penaltyUntil ≤ now →
      belowMinAmount w.cfg p = false → aboveMaxAmount w.cfg p = false →
      (w.handleLivePayment p now (.penalized u r)).notifications =
        if u ≠ 0 ∧ w.lastPenaltyNotified < u then [(u, r)] else []) := by
  refine ⟨?_, ?_, ?_, ?_⟩
  · intro w u
    unfold Worker.shouldNotifyPenalty
    by_cases hu : u = 0 <;> by_cases hlt : w.lastPenaltyNotified < u <;>
      simp [hu, hlt]
  · intro w u
    unfold Worker.shouldNotifyPenalty
    by_cases hu : u = 0 <;> by_cases hlt : w.lastPenaltyNotified < u <;>
      simp [hu, hlt]
  · intro w us v
    have hnd : (runNotify w us).Nodup :=
      (runNotify_pairwise us w).imp (fun h => Nat.ne_of_lt h)
    exact List.nodup_iff_count_le_one.mp hnd v
  · intro w p now u r h1 h2 h3 h4 h5
    have hlk := isActiveLocked_expired { w with seen := (p.id, now) :: w.seen } now
      (by simpa using h2)
    have hp : ¬ now < w.penaltyUntil := Nat.not_lt.mpr h3
    by_cases hu : u = 0 <;> by_cases hlt : w.lastPenaltyNotified < u <;>
      simp [Worker.handleLivePayment, h1, hlk, hp, h4, h5,
        Worker.shouldNotifyPenalty, hu, hlt]

theorem c8_penalty_notification_idempotence_witness :
    (mkWorker.handleLivePayment (mkPayment "C") 0 (.penalized 7 "SLOW")).notifications =
      [(7, "SLOW")] := by
  have h := c8_penalty_notification_idempotence.2.2.2 mkWorker (mkPayment "C") 0 7 "SLOW"
    (by decide) (by decide) (by decide) (by decide) (by decide)
  exact h.trans (by decide)

end P2C
